import Mathlib

/-!
A shallow embedding of the kiwibnc per-connection protocol core:
`src/worker/clientcommands.js` (the downstream state machine, verb handlers
and the BOUNCER administrative verbs) and the durable `ConnectionState` /
`IrcBuffer` record (`connectionstate`, provided as `src/unnamed/part_000`).

JavaScript objects keyed by strings are embedded as insertion-ordered
association lists (`objGet` / `objSet` / `objDel` mirror property read,
property assignment and `delete`).  JS `Set` values are embedded as
duplicate-free lists in insertion order.  Dynamic typing of the values held
in `tempData` is embedded with the `TempVal` sum; runtime type errors
(calling a missing method, reading a property of `undefined`) are embedded
as the error branch of `Except`, carrying the connection at the point the
exception was raised (output already written to the socket stays written).
External effects (upstream writes, the message store, ClientControl, the
process queue) are recorded as `Event`s on the connection.
-/

namespace KiwiBnc

/-- Property read on a JS object: first binding of the key, else `undefined`. -/
def objGet {α : Type} : List (String × α) → String → Option α
  | [], _ => none
  | (k, v) :: rest, key => if k = key then some v else objGet rest key

/-- Property assignment on a JS object: an existing key keeps its position,
a new key is appended (JS string-keyed insertion order). -/
def objSet {α : Type} : List (String × α) → String → α → List (String × α)
  | [], key, val => [(key, val)]
  | (k, v) :: rest, key, val =>
    if k = key then (k, val) :: rest else (k, v) :: objSet rest key val

/-- The `delete` operator on a JS object. -/
def objDel {α : Type} : List (String × α) → String → List (String × α)
  | [], _ => []
  | (k, v) :: rest, key =>
    if k = key then objDel rest key else (k, v) :: objDel rest key

/-- `Set.prototype.add`: append if absent (JS sets keep insertion order). -/
def jsSetAdd (l : List String) (x : String) : List String :=
  if x ∈ l then l else l ++ [x]

/-- `Set.prototype.delete`. -/
def jsSetDelete (l : List String) (x : String) : List String :=
  l.filter (fun y => y ≠ x)

/-- `new Set(array)`: add each element in order, keeping the first
occurrence of each. -/
def jsNewSet (l : List String) : List String :=
  l.foldl jsSetAdd []

/-- `String.prototype.toUpperCase`, character-wise (kernel-computable). -/
def jsToUpper (s : String) : String := String.mk (s.data.map Char.toUpper)

/-- `String.prototype.toLowerCase`, character-wise (kernel-computable). -/
def jsToLower (s : String) : String := String.mk (s.data.map Char.toLower)

def jsSplitAux (sep : Char) : List Char → List Char → List String
  | [], acc => [String.mk acc.reverse]
  | c :: rest, acc =>
    if c = sep then String.mk acc.reverse :: jsSplitAux sep rest []
    else jsSplitAux sep rest (c :: acc)

/-- `String.prototype.split(sep)` for a single-character separator; as in
JS, the empty string splits to a single empty piece. -/
def jsSplit (s : String) (sep : Char) : List String := jsSplitAux sep s.data []

/-- Does the string contain a space character? -/
def strHasSpace (s : String) : Bool := s.data.contains ' '

/-- Does the string start with a colon? -/
def strStartsWithColon (s : String) : Bool :=
  match s.data with
  | ':' :: _ => true
  | _ => false

/-- `class IrcBuffer` (part_000, lines 3-23). -/
structure IrcBuffer where
  name : String
  key : String
  joined : Bool
  topic : String
  isChannel : Bool
  lastSeen : Nat
deriving DecidableEq, Repr

/-- `new IrcBuffer(name, upstreamCon)`: `isChannel` is
`upstreamCon ? upstreamCon.isChannelName(name) : true`; the upstream naming
rule is passed as an optional predicate (external collaborator). -/
def IrcBuffer.new (name : String) (upstreamCon : Option (String → Bool)) : IrcBuffer :=
  { name := name
    key := ("")
    joined := false
    topic := ("")
    isChannel := match upstreamCon with
      | some isChannelName => isChannelName name
      | none => true
    lastSeen := 0 }

/-- `IrcBuffer.fromObj(obj)`: builds `new IrcBuffer(obj.name)` (no upstream,
so `lastSeen` starts at 0 and is NOT copied from `obj`), then copies
`key || ''`, `joined || false`, `topic || ''`, `!!obj.isChannel`. -/
def IrcBuffer.fromObj (obj : IrcBuffer) : IrcBuffer :=
  { name := obj.name
    key := obj.key
    joined := obj.joined
    topic := obj.topic
    isChannel := obj.isChannel
    lastSeen := 0 }

/-- The runtime value held in `ConnectionState.caps`.  `connectionstate`
(part_000, line 37) initializes it as `new Set()`; `clientcommands.js`
(lines 150, 162) invokes the Array methods `join` and `concat` on it.  The
sum keeps the JS runtime type visible so that method dispatch can be
embedded faithfully: calling an Array method on a `Set` raises `TypeError`. -/
inductive CapsValue where
  | set (elems : List String)
  | arr (elems : List String)
deriving DecidableEq, Repr

/-- `Array.from(caps)`: works on both a Set and an Array. -/
def CapsValue.arrayFrom : CapsValue → List String
  | .set elems => elems
  | .arr elems => elems

/-- `caps.join(sep)`: an Array method; a Set has no `join`. -/
def CapsValue.join : CapsValue → String → Except String String
  | .arr elems, sep => Except.ok (String.intercalate sep elems)
  | .set _, _ => Except.error ("TypeError: con.state.caps.join is not a function")

/-- `caps.concat(list)`: an Array method; a Set has no `concat`. -/
def CapsValue.concat : CapsValue → List String → Except String CapsValue
  | .arr elems, more => Except.ok (CapsValue.arr (elems ++ more))
  | .set _, _ => Except.error ("TypeError: con.state.caps.concat is not a function")

/-- A value stored in the per-connection `tempData` scratch map.  The three
shapes that the modelled code ever stores: the CAP version string under
`capping`, the raw-line queue under `reg.queue`, and the registration
triple under `reg.state`. -/
inductive TempVal where
  | str (s : String)
  | queue (q : List String)
  | reg (nick : String) (user : String) (pass : String)
deriving DecidableEq, Repr

/-- JS truthiness of a stored temp value: only the empty string is falsy
(arrays and objects are always truthy). -/
def TempVal.truthy : TempVal → Bool
  | .str s => s ≠ ("")
  | .queue _ => true
  | .reg _ _ _ => true

structure Sasl where
  account : String
  password : String
deriving DecidableEq, Repr

/-- `class ConnectionState` (part_000, lines 27-72): the durable
per-connection record.  `db` is omitted (the sqlite handle is an external
collaborator); `serverPrefix` is named `serverPfx`.  `buffers` is the JS
object keyed by lowercased buffer name. -/
structure ConnectionState where
  conId : String
  loaded : Bool
  serverPfx : String
  registrationLines : List String
  isupports : List String
  caps : CapsValue
  buffers : List (String × IrcBuffer)
  nick : String
  account : String
  username : String
  realname : String
  password : String
  host : String
  port : Nat
  tls : Bool
  tlsverify : Bool
  bindHost : String
  type : Nat
  connected : Bool
  sasl : Sasl
  netRegistered : Bool
  receivedMotd : Bool
  authUserId : Nat
  authNetworkId : Nat
  authNetworkName : String
  authAdmin : Bool
  linkedIncomingConIds : List String
  logging : Bool
  tempData : List (String × TempVal)
deriving DecidableEq, Repr

/-- `new ConnectionState(id, db)`: the constructor defaults. -/
def ConnectionState.new (id : String) : ConnectionState :=
  { conId := id
    loaded := false
    serverPfx := ("bnc")
    registrationLines := []
    isupports := []
    caps := CapsValue.set []
    buffers := []
    nick := ("unknown-user")
    account := ("")
    username := ("user")
    realname := ("BNC user")
    password := ("")
    host := ("")
    port := 6667
    tls := false
    tlsverify := true
    bindHost := ("")
    type := 0
    connected := false
    sasl := { account := (""), password := ("") }
    netRegistered := false
    receivedMotd := false
    authUserId := 0
    authNetworkId := 0
    authNetworkName := ("")
    authAdmin := false
    linkedIncomingConIds := []
    logging := true
    tempData := [] }

/-- One row of the sqlite `connections` table.  JSON-serialized columns are
kept structured: `JSON.stringify` followed by `JSON.parse` is the identity
on these values, and the sqlite layer itself is an external collaborator. -/
structure DbRow where
  conid : String
  last_statesave : Nat
  bind_host : String
  host : String
  port : Nat
  tls : Bool
  tlsverify : Bool
  type : Nat
  account : String
  username : String
  realname : String
  password : String
  connected : Bool
  sasl : Sasl
  server_pfx : String
  registration_lines : List String
  isupports : List String
  caps : List String
  buffers : List (String × IrcBuffer)
  nick : String
  received_motd : Bool
  net_registered : Bool
  auth_user_id : Nat
  auth_network_id : Nat
  auth_network_name : String
  auth_admin : Bool
  linked_con_ids : List String
  logging : Bool
  temp : List (String × TempVal)
deriving DecidableEq, Repr

/-- `ConnectionState.save()` (part_000, lines 80-116): the insert-or-replace
row built from the record.  Note line 84: `bind_host` is always saved as
the empty string, not as `this.bindHost`. -/
def ConnectionState.saveRow (s : ConnectionState) (now : Nat) : DbRow :=
  { conid := s.conId
    last_statesave := now
    bind_host := ("")
    host := s.host
    port := s.port
    tls := s.tls
    tlsverify := s.tlsverify
    type := s.type
    account := s.account
    username := s.username
    realname := s.realname
    password := s.password
    connected := s.connected
    sasl := s.sasl
    server_pfx := s.serverPfx
    registration_lines := s.registrationLines
    isupports := s.isupports
    caps := s.caps.arrayFrom
    buffers := s.buffers
    nick := s.nick
    received_motd := s.receivedMotd
    net_registered := s.netRegistered
    auth_user_id := s.authUserId
    auth_network_id := s.authNetworkId
    auth_network_name := s.authNetworkName
    auth_admin := s.authAdmin
    linked_con_ids := s.linkedIncomingConIds
    logging := s.logging
    temp := s.tempData }

/-- `ConnectionState.getBuffer(name)` (part_000, lines 261-263). -/
def ConnectionState.getBuffer (s : ConnectionState) (name : String) : Option IrcBuffer :=
  objGet s.buffers (jsToLower name)

/-- The argument of `addBuffer`: either a name string or a stored buffer
object (as in `load()`). -/
inductive BufferArg where
  | name (s : String)
  | obj (b : IrcBuffer)
deriving DecidableEq, Repr

/-- `ConnectionState.addBuffer(chan, upstreamCon)` (part_000, lines 265-277):
build the buffer (from a string via the constructor, from an object via
`fromObj`) and store it under the lowercased name; returns the buffer. -/
def ConnectionState.addBuffer (s : ConnectionState) (chan : BufferArg)
    (upstreamCon : Option (String → Bool)) : ConnectionState × IrcBuffer :=
  let buffer := match chan with
    | BufferArg.name n => IrcBuffer.new n upstreamCon
    | BufferArg.obj b => IrcBuffer.fromObj b
  ({ s with buffers := objSet s.buffers (jsToLower buffer.name) buffer }, buffer)

/-- `ConnectionState.getOrAddBuffer(name, upstreamCon)` (part_000,
lines 249-259).  The `save()` it triggers is persistence only. -/
def ConnectionState.getOrAddBuffer (s : ConnectionState) (name : String)
    (upstreamCon : Option (String → Bool)) : ConnectionState × IrcBuffer :=
  match s.getBuffer name with
  | some buffer => (s, buffer)
  | none => s.addBuffer (BufferArg.name name) upstreamCon

/-- `ConnectionState.delBuffer(name)` (part_000, lines 279-282). -/
def ConnectionState.delBuffer (s : ConnectionState) (name : String) : ConnectionState :=
  { s with buffers := objDel s.buffers (jsToLower name) }

/-- `ConnectionState.renameBuffer(oldName, newName)` (part_000,
lines 284-301): returns `undefined` if no buffer at the old name; returns
the existing buffer if one already sits at the new name; otherwise deletes
the old key, mutates `name` and re-inserts under the new lowercase key. -/
def ConnectionState.renameBuffer (s : ConnectionState) (oldName newName : String) :
    ConnectionState × Option IrcBuffer :=
  match s.getBuffer oldName with
  | none => (s, none)
  | some oldBuffer =>
    match s.getBuffer newName with
    | some newBuffer => (s, some newBuffer)
    | none =>
      let removed := objDel s.buffers (jsToLower oldName)
      let renamed := { oldBuffer with name := newName }
      ({ s with buffers := objSet removed (jsToLower newName) renamed }, some renamed)

/-- `ConnectionState.linkIncomingConnection(id)` (part_000, lines 303-306). -/
def ConnectionState.linkIncomingConnection (s : ConnectionState) (id : String) : ConnectionState :=
  { s with linkedIncomingConIds := jsSetAdd s.linkedIncomingConIds id }

/-- `ConnectionState.unlinkIncomingConnection(id)` (part_000, lines 308-311). -/
def ConnectionState.unlinkIncomingConnection (s : ConnectionState) (id : String) : ConnectionState :=
  { s with linkedIncomingConIds := jsSetDelete s.linkedIncomingConIds id }

/-- `ConnectionState.load()` (part_000, lines 174-219): replace in-memory
fields from the row (absent row: reset the complex fields only).  `caps`
comes back as `new Set(JSON.parse(...))`, `linkedIncomingConIds` as a
deduplicated set, and `buffers` is rebuilt through `addBuffer` applied to
each stored buffer object in insertion order — `IrcBuffer.fromObj` does not
carry `lastSeen` over. -/
def ConnectionState.loadRow (s : ConnectionState) (row : Option DbRow) : ConnectionState :=
  match row with
  | none =>
    { s with
      registrationLines := []
      isupports := []
      caps := CapsValue.set []
      buffers := []
      tempData := []
      logging := true
      loaded := true }
  | some row =>
    let s := { s with
      bindHost := row.bind_host
      host := row.host
      port := row.port
      tls := row.tls
      tlsverify := row.tlsverify
      type := row.type
      sasl := row.sasl
      connected := row.connected
      serverPfx := row.server_pfx
      registrationLines := row.registration_lines
      isupports := row.isupports
      caps := CapsValue.set (jsNewSet row.caps)
      buffers := []
      nick := row.nick
      account := row.account
      username := row.username
      realname := row.realname
      password := row.password
      receivedMotd := row.received_motd
      netRegistered := row.net_registered
      authUserId := row.auth_user_id
      authNetworkId := row.auth_network_id
      authNetworkName := row.auth_network_name
      authAdmin := row.auth_admin
      linkedIncomingConIds := jsNewSet row.linked_con_ids
      logging := row.logging
      tempData := row.temp }
    let s := row.buffers.foldl
      (fun st p => (st.addBuffer (BufferArg.obj p.2) none).1) s
    { s with loaded := true }

/-- A parsed IRC message as handed to `run(msg, con)`.  `source` is the
`source=queue` tag set on messages re-dispatched from the registration
queue. -/
structure Msg where
  command : String
  params : List String
  source : Option String
deriving DecidableEq, Repr

/-- Modelled from the spec: `mParam(msg, idx, def)` from `src/libs/helpers`
(not under src/) — parameter at `idx` or the default when the parameter is
missing or empty (JS `msg.params[idx] || def`). -/
def mParam (msg : Msg) (idx : Nat) (dflt : String) : String :=
  match msg.params.get? idx with
  | some s => if s = ("") then dflt else s
  | none => dflt

/-- Modelled from the spec: `mParamU` — `mParam` uppercased. -/
def mParamU (msg : Msg) (idx : Nat) (dflt : String) : String :=
  jsToUpper (mParam msg idx dflt)

/-- Serialize the parameter list back to wire form: the last parameter gets
a `:` marker when it is empty, contains a space, or starts with `:`. -/
def formatParams : List String → List String
  | [] => []
  | [last] =>
    if last = ("") ∨ strHasSpace last ∨ strStartsWithColon last
    then [(":") ++ last] else [last]
  | p :: rest => p :: formatParams rest

/-- Modelled from the spec: `msg.to1459()` from irc-framework (the line
framer is an external collaborator) — the raw wire line of a message. -/
def Msg.to1459 (m : Msg) : String :=
  String.intercalate (" ") (m.command :: formatParams m.params)

/-- Walk tokens into IRC parameters: a token starting with `:` begins the
trailing parameter. -/
def collectParams : List String → List String
  | [] => []
  | t :: rest =>
    if strStartsWithColon t
    then [String.intercalate (" ") ((t.drop 1) :: rest)]
    else t :: collectParams rest

/-- Modelled from the spec: `ircLineParser(line)` from irc-framework — parse
a raw line back into a message (no tag/prefix forms appear on queued
client lines).  Returns `undefined` (none) on an empty line. -/
def ircLineParser (line : String) : Option Msg :=
  match jsSplit line ' ' with
  | [] => none
  | cmd :: rest =>
    if cmd = ("") then none
    else some { command := cmd, params := collectParams rest, source := none }

/-- A line written to this client socket, kept structured:
`pfx` is the `:source` prefix when the line was written with
`writeMsgFrom`/`writeFromBnc`. -/
structure OutMsg where
  pfx : Option String
  command : String
  params : List String
deriving DecidableEq, Repr

/-- Render an outgoing message to its wire line. -/
def OutMsg.render (m : OutMsg) : String :=
  let body := String.intercalate (" ") (m.command :: formatParams m.params)
  match m.pfx with
  | some p => (":") ++ p ++ (" ") ++ body
  | none => body

/-- External effects of a handler, recorded in program order on the
connection: calls into the upstream connection object, the message store,
ClientControl, the process queue and the hot-reload machinery — all
collaborators outside `clientcommands.js`. -/
inductive Event where
  | echo (toConId : String) (fromNick : String) (command : String)
      (target : String) (text : String)
  | clientControl (m : Msg)
  | storeMessage (userId : Nat) (networkId : Nat) (m : Msg)
  | madeUpstream (networkId : Nat)
  | openedUpstream
  | closedUpstream
  | registeredClient
  | registeredLocalClient
  | status (text : String)
  | upstreamLine (command : String) (params : List String)
  | upstreamDelChannel (name : String)
  | reloadCommands
  | processExit
deriving DecidableEq, Repr

/-- The downstream connection as seen by the handlers: its durable state, a
read-only view of the attached upstream connection state (if any), the
lines written to this client, the recorded external events, and whether
`con.close()` has been called. -/
structure Conn where
  state : ConnectionState
  upstream : Option ConnectionState
  out : List OutMsg
  events : List Event
  closed : Bool
deriving DecidableEq, Repr

def Conn.writeMsg (c : Conn) (command : String) (params : List String) : Conn :=
  { c with out := c.out ++ [{ pfx := none, command := command, params := params }] }

def Conn.writeMsgFrom (c : Conn) (fromSrc : String) (command : String)
    (params : List String) : Conn :=
  { c with out := c.out ++ [{ pfx := some fromSrc, command := command, params := params }] }

/-- Modelled from the spec: `con.writeFromBnc(...)` — a line from the
configured server prefix (default `bnc`). -/
def Conn.writeFromBnc (c : Conn) (command : String) (params : List String) : Conn :=
  c.writeMsgFrom c.state.serverPfx command params

/-- Modelled from the spec: `con.writeStatus(text)` — a status message
delivered as PRIVMSG from source `bnc`; recorded as an event. -/
def Conn.writeStatus (c : Conn) (text : String) : Conn :=
  { c with events := c.events ++ [Event.status text] }

def Conn.event (c : Conn) (e : Event) : Conn :=
  { c with events := c.events ++ [e] }

def Conn.close (c : Conn) : Conn :=
  { c with closed := true }

/-- `con.state.tempGet(key)` (part_000, lines 225-227). -/
def Conn.tempGet (c : Conn) (key : String) : Option TempVal :=
  objGet c.state.tempData key

/-- `con.state.tempSet(key, val)` (part_000, lines 229-247), string-key
form (the object form is not used by the modelled call sites); `null`
deletes the key.  The `save()` it triggers is persistence only. -/
def Conn.tempSet (c : Conn) (key : String) (val : Option TempVal) : Conn :=
  match val with
  | none => { c with state := { c.state with tempData := objDel c.state.tempData key } }
  | some v => { c with state := { c.state with tempData := objSet c.state.tempData key v } }

/-- A row of the external user store. -/
structure User where
  id : Nat
deriving DecidableEq, Repr

/-- A row of the external network store. -/
structure Network where
  id : Nat
  user_id : Nat
  name : String
  host : String
  port : Nat
  tls : Bool
deriving DecidableEq, Repr

/-- The external collaborators consumed by the handlers: the credential
store (`con.userDb`), the connection registry (`con.conDict`) and the
`available_caps` hook channel (`clienthooks`, not under src/).  All are
interfaces referenced by the spec but implemented outside the modelled
files, so they enter as parameters. -/
structure Env where
  availableCaps : List String
  authUser : String → String → Option User
  authUserNetwork : String → String → String → Option Network
  getNetworkByName : Nat → String → Option Network
  getUserNetworks : Nat → List Network
  findUsersOutgoingConnection : Nat → Nat → Option ConnectionState

/-- Truthiness of `con.state.tempGet('capping')`. -/
def cappingSet (c : Conn) : Bool :=
  match c.tempGet ("capping") with
  | some v => v.truthy
  | none => false

/-- The `reg.state` triple, when present.  Only a registration record is
ever stored under this key. -/
def getRegState (c : Conn) : Option (String × String × String) :=
  match c.tempGet ("reg.state") with
  | some (TempVal.reg n u p) => some (n, u, p)
  | _ => none

/-- The `reg.queue` contents (`tempGet('reg.queue') || []`).  Only a line
queue is ever stored under this key. -/
def regQueueOf (c : Conn) : List String :=
  match c.tempGet ("reg.queue") with
  | some (TempVal.queue q) => q
  | _ => []

/-- A match of the password regex `([^\/:]+)(?:\/([^:]+))?(?::(.*))?`
attempted at the current position: a nonempty run free of `/` and `:`,
then optionally `/` with a nonempty colon-free run (skipped, unconsumed,
if it cannot match), then optionally `:` and the rest. -/
def passMatchAt (cs : List Char) : Option (String × String × String) :=
  let u := cs.takeWhile (fun c => !(c = '/' || c = ':'))
  if u.isEmpty then none
  else
    let rest1 := cs.drop u.length
    let netAndRest : String × List Char :=
      match rest1 with
      | '/' :: tl =>
        let n := tl.takeWhile (fun c => !(c = ':'))
        if n.isEmpty then (("") , rest1) else (String.mk n, tl.drop n.length)
      | _ => ((""), rest1)
    let pw := match netAndRest.2 with
      | ':' :: tl => String.mk tl
      | _ => ("")
    some (String.mk u, netAndRest.1, pw)

/-- An unanchored regex match: try each start position left to right. -/
def passMatchFrom : List Char → Option (String × String × String)
  | [] => none
  | c :: tl =>
    match passMatchAt (c :: tl) with
    | some r => some r
    | none => passMatchFrom tl

/-- `regState.pass.match(/([^\/:]+)(?:\/([^:]+))?(?::(.*))?/)` reduced to
the `(username, networkName, password)` triple with `m[k] || ''` applied
(clientcommands.js lines 76-85). -/
def parsePass (s : String) : Option (String × String × String) :=
  passMatchFrom s.data

instance {ε α : Type} [DecidableEq ε] [DecidableEq α] : DecidableEq (Except ε α) :=
  fun a b =>
  match a, b with
  | Except.ok x, Except.ok y =>
    if h : x = y then Decidable.isTrue (by rw [h])
    else Decidable.isFalse (by intro hh; cases hh; exact h rfl)
  | Except.error x, Except.error y =>
    if h : x = y then Decidable.isTrue (by rw [h])
    else Decidable.isFalse (by intro hh; cases hh; exact h rfl)
  | Except.ok _, Except.error _ => Decidable.isFalse (by intro hh; cases hh)
  | Except.error _, Except.ok _ => Decidable.isFalse (by intro hh; cases hh)

/-- The result of a handler or of `run`: either the updated connection with
the "forward upstream" boolean, or a raised JS exception carrying the
connection at the point it was thrown. -/
abbrev RunRes := Except (Conn × String) (Conn × Bool)

/-- Modelled from the spec: `upstream.forEachClient(fn, exclude)` iterates
`linkedIncomingConIds` skipping the excluded connection (§4.5); the client
objects are resolved through the registry, so only their ids appear here. -/
def forEachClientEcho (up : ConnectionState) (excludeConId : String)
    (mk : String → Event) : List Event :=
  (up.linkedIncomingConIds.filter (fun cid => cid ≠ excludeConId)).map mk

/-- Modelled from the spec: irc-framework messagetags `encode` — key=value
pairs joined with `;`. -/
def encodeTags (tags : List (String × String)) : String :=
  String.intercalate (";") (tags.map (fun p => p.1 ++ ("=") ++ p.2))

/-- JS string conversion of a boolean (`'' + b`). -/
def jsBoolStr (b : Bool) : String := if b then ("true") else ("false")

/-- `commands.PASS` (clientcommands.js lines 175-186): ignored once logged
in; otherwise stores the parameter into `reg.state.pass`.  When `reg.state`
is absent the property write on `undefined` raises. -/
def commands.PASS (msg : Msg) (con : Conn) : RunRes :=
  if con.state.authUserId ≠ 0 then Except.ok (con, false)
  else
    match getRegState con with
    | none => Except.error (con, ("TypeError: cannot set property pass of undefined"))
    | some (n, u, _) =>
      let con := con.tempSet ("reg.state") (some (TempVal.reg n u (mParam msg 0 (""))))
      Except.ok (con, false)

/-- `commands.USER` (clientcommands.js lines 188-197): stores the parameter
into `reg.state.user` when `reg.state` exists; never forwarded. -/
def commands.USER (msg : Msg) (con : Conn) : RunRes :=
  let con := match getRegState con with
    | some (n, _, p) =>
      con.tempSet ("reg.state") (some (TempVal.reg n (mParam msg 0 ("")) p))
    | none => con
  Except.ok (con, false)

/-- `commands.NICK` (clientcommands.js lines 239-267). -/
def commands.NICK (msg : Msg) (con : Conn) : RunRes :=
  let upstreamUnregistered : Bool := match con.upstream with
    | some up => !up.netRegistered
    | none => false
  if upstreamUnregistered then Except.ok (con, false)
  else if con.state.netRegistered = false then
    let con := { con with state := { con.state with nick := msg.params.getD 0 ("") } }
    let con := con.writeMsgFrom con.state.nick ("NICK") [con.state.nick]
    let con := match getRegState con with
      | some (_, u, p) =>
        con.tempSet ("reg.state") (some (TempVal.reg (mParam msg 0 ("")) u p))
      | none => con
    let con := con.writeMsgFrom ("bnc") ("464") [con.state.nick, ("Password required")]
    let con := con.writeFromBnc ("NOTICE")
      [con.state.nick,
       ("You must send your password first. /quote PASS <username>/<network>:<password>")]
    Except.ok (con, false)
  else Except.ok (con, true)

/-- `commands.NOTICE` (clientcommands.js lines 199-213): echo to sibling
clients, store to the message store; no return value, so never forwarded
by `run`. -/
def commands.NOTICE (msg : Msg) (con : Conn) : RunRes :=
  let con := match con.upstream with
    | some up =>
      let echoes := forEachClientEcho up con.state.conId
        (fun cid => Event.echo cid up.nick ("NOTICE")
          (msg.params.getD 0 ("")) (msg.params.getD 1 ("")))
      { con with events := con.events ++ echoes }
    | none => con
  let con := match con.upstream with
    | some up => con.event (Event.storeMessage up.authUserId up.authNetworkId msg)
    | none => con
  Except.ok (con, false)

/-- `commands.PRIVMSG` (clientcommands.js lines 215-237): echo to sibling
clients first; a PM to `*bnc` while logged in is then handed to
ClientControl and not forwarded; otherwise store and forward. -/
def commands.PRIVMSG (msg : Msg) (con : Conn) : RunRes :=
  let con := match con.upstream with
    | some up =>
      let echoes := forEachClientEcho up con.state.conId
        (fun cid => Event.echo cid up.nick ("PRIVMSG")
          (msg.params.getD 0 ("")) (msg.params.getD 1 ("")))
      { con with events := con.events ++ echoes }
    | none => con
  if msg.params.getD 0 ("") = ("*bnc") ∧ con.state.authUserId ≠ 0 then
    Except.ok (con.event (Event.clientControl msg), false)
  else
    let con := match con.upstream with
      | some up => con.event (Event.storeMessage up.authUserId up.authNetworkId msg)
      | none => con
    Except.ok (con, true)

/-- `commands.PING` (clientcommands.js lines 269-272). -/
def commands.PING (msg : Msg) (con : Conn) : RunRes :=
  Except.ok (con.writeMsg ("PONG") [msg.params.getD 0 ("")], false)

/-- `commands.QUIT` (clientcommands.js lines 274-278). -/
def commands.QUIT (_ : Msg) (con : Conn) : RunRes :=
  Except.ok (con.close, false)

/-- `commands.KILL` (clientcommands.js lines 422-425). -/
def commands.KILL (_ : Msg) (con : Conn) : RunRes :=
  Except.ok (con.event Event.processExit, false)

/-- `commands.RELOAD` (clientcommands.js lines 427-430). -/
def commands.RELOAD (_ : Msg) (con : Conn) : RunRes :=
  Except.ok (con.event Event.reloadCommands, false)

/-- `commands.DEB` (clientcommands.js lines 432-438): debug logging only. -/
def commands.DEB (_ : Msg) (con : Conn) : RunRes :=
  Except.ok (con, false)

/-- `commands.BOUNCER` (clientcommands.js lines 280-419).  Kept from the
source: in LISTNETWORKS the part `'tls=' + net.tls ? '1' : '0'` is a JS
conditional whose condition is the string `'tls=' + net.tls` (operator
precedence), so the pushed part is the bare string `'1'` whenever that
string is nonempty — always; and `host=` is pushed twice (lines 332, 335).
In DELBUFFER the missing-buffer branch (lines 405-408) writes RPL_OK but
does not return, so the subsequent `buffer.name` dereference of
`undefined` raises.  `upstream.state.getChannel` / `delChannel` /
`channels` are modelled from the spec as the connection state's
case-insensitive buffer map (§3, §4.1); their bodies are not under src/.
The five sub-command blocks test the same value sequentially, hence are
mutually exclusive and embedded as an if-chain. -/
def commands.BOUNCER (env : Env) (msg : Msg) (con : Conn) : RunRes :=
  let subCmd := mParamU msg 0 ("")
  if subCmd = ("CONNECT") then
    let netName := mParam msg 1 ("")
    if netName = ("") then
      Except.ok (con.writeMsg ("BOUNCER") [("connect"), ("*"), ("ERR_INVALIDARGS")], false)
    else
      match env.getNetworkByName con.state.authUserId netName with
      | none =>
        Except.ok (con.writeMsg ("BOUNCER") [("connect"), ("*"), ("ERR_NETNOTFOUND")], false)
      | some network =>
        match env.findUsersOutgoingConnection con.state.authUserId network.id with
        | some upstream =>
          if upstream.connected = false then
            Except.ok (con.event Event.openedUpstream, false)
          else Except.ok (con, false)
        | none => Except.ok (con.event (Event.madeUpstream network.id), false)
  else if subCmd = ("DISCONNECT") then
    let netName := mParam msg 1 ("")
    if netName = ("") then
      Except.ok (con.writeMsg ("BOUNCER") [("disconnect"), ("*"), ("ERR_INVALIDARGS")], false)
    else
      match env.getNetworkByName con.state.authUserId netName with
      | none =>
        Except.ok (con.writeMsg ("BOUNCER") [("disconnect"), ("*"), ("ERR_NETNOTFOUND")], false)
      | some network =>
        match env.findUsersOutgoingConnection con.state.authUserId network.id with
        | some upstream =>
          if upstream.connected then Except.ok (con.event Event.closedUpstream, false)
          else Except.ok (con, false)
        | none => Except.ok (con, false)
  else if subCmd = ("LISTNETWORKS") then
    let nets := env.getUserNetworks con.state.authUserId
    let con := nets.foldl (fun (c : Conn) (net : Network) =>
      let parts := [("network=") ++ net.name,
                    ("host=") ++ net.host,
                    ("port=") ++ toString net.port,
                    (if (("tls=") ++ jsBoolStr net.tls) ≠ ("") then ("1") else ("0")),
                    ("host=") ++ net.host]
      let parts := parts ++
        [match env.findUsersOutgoingConnection c.state.authUserId net.id with
         | some netCon =>
           ("state=") ++ (if netCon.connected then ("connected") else ("disconnected"))
         | none => ("state=disconnect")]
      c.writeMsg ("BOUNCER") [("listnetworks"), String.intercalate (";") parts]) con
    Except.ok (con.writeMsg ("BOUNCER") [("listnetwork"), ("RPL_OK")], false)
  else if subCmd = ("LISTBUFFERS") then
    let netName := mParam msg 1 ("")
    if netName = ("") then
      Except.ok (con.writeMsg ("BOUNCER") [("listbuffers"), ("*"), ("ERR_INVALIDARGS")], false)
    else
      match env.getNetworkByName con.state.authUserId netName with
      | none =>
        Except.ok (con.writeMsg ("BOUNCER") [("listbuffers"), ("*"), ("ERR_NETNOTFOUND")], false)
      | some network =>
        let con := match env.findUsersOutgoingConnection con.state.authUserId network.id with
          | some upstream =>
            upstream.buffers.foldl (fun (c : Conn) (p : String × IrcBuffer) =>
              let buffer := p.2
              c.writeMsg ("BOUNCER") [("listbuffers"), network.name,
                encodeTags [(("network"), network.name), (("buffer"), buffer.name),
                            (("joined"), if buffer.joined then ("1") else ("0")),
                            (("topic"), buffer.topic)]]) con
          | none => con
        Except.ok (con.writeMsg ("BOUNCER") [("listbuffers"), network.name, ("RPL_OK")], false)
  else if subCmd = ("DELBUFFER") then
    let netName := mParam msg 1 ("")
    let bufferName := mParam msg 2 ("")
    if netName = ("") ∨ bufferName = ("") then
      Except.ok (con.writeMsg ("BOUNCER") [("delbuffer"), ("*"), ("ERR_INVALIDARGS")], false)
    else
      match env.getNetworkByName con.state.authUserId netName with
      | none =>
        Except.ok (con.writeMsg ("BOUNCER") [("delbuffer"), ("*"), ("ERR_NETNOTFOUND")], false)
      | some network =>
        match env.findUsersOutgoingConnection con.state.authUserId network.id with
        | none =>
          Except.ok
            (con.writeMsg ("BOUNCER") [("delbuffer"), network.name, bufferName, ("RPL_OK")],
             false)
        | some upstreamState =>
          match upstreamState.getBuffer bufferName with
          | none =>
            -- RPL_OK is written, but the block does not return: the next
            -- statement reads `buffer.name` from `undefined` and raises.
            let con :=
              con.writeMsg ("BOUNCER") [("delbuffer"), network.name, bufferName, ("RPL_OK")]
            Except.error (con, ("TypeError: cannot read property name of undefined"))
          | some buffer =>
            let con := con.event (Event.upstreamDelChannel buffer.name)
            let con := if buffer.joined
              then con.event (Event.upstreamLine ("PART") [buffer.name])
              else con
            Except.ok
              (con.writeMsg ("BOUNCER") [("delbuffer"), network.name, bufferName, ("RPL_OK")],
               false)
  else Except.ok (con, false)

/-- `maybeProcessRegistration(con)` (clientcommands.js lines 63-138):
proceed only when the `reg.state` triple is complete and `capping` is not
set; parse the password triple; authenticate against the network store or
the user store; on failure write `ERROR :Invalid password` and close; on
success set the auth identity, bind or create the upstream (network login)
or register locally (user-only login), and clear `reg.state`. -/
def maybeProcessRegistration (env : Env) (con : Conn) : Except (Conn × String) Conn :=
  match getRegState con with
  | none => Except.error (con, ("TypeError: cannot read properties of undefined"))
  | some (nick, user, pass) =>
    if nick = ("") ∨ user = ("") ∨ pass = ("") ∨ cappingSet con then Except.ok con
    else
      match parsePass pass with
      | none => Except.ok ((con.writeMsg ("ERROR") [("Invalid password")]).close)
      | some (username, networkName, password) =>
        if networkName ≠ ("") then
          match env.authUserNetwork username password networkName with
          | none => Except.ok ((con.writeMsg ("ERROR") [("Invalid password")]).close)
          | some network =>
            let con := { con with state := { con.state with
              authUserId := network.user_id, authNetworkId := network.id } }
            -- await con.state.save(): persistence only
            if cappingSet con then Except.ok con
            else
              let con := match con.upstream with
                | none =>
                  (con.event (Event.madeUpstream network.id)).writeStatus
                    ("Connecting to the network..")
                | some up =>
                  if up.connected = false then
                    (con.writeStatus ("Connecting to the network..")).event Event.openedUpstream
                  else
                    let c := con.writeStatus ("Attaching you to the network")
                    if up.netRegistered then c.event Event.registeredClient else c
              Except.ok (con.tempSet ("reg.state") none)
        else
          match env.authUser username password with
          | none => Except.ok ((con.writeMsg ("ERROR") [("Invalid password")]).close)
          | some usr =>
            let con := { con with state := { con.state with authUserId := usr.id } }
            if cappingSet con then Except.ok con
            else
              let con :=
                (con.writeStatus ("Welcome to your BNC!")).event Event.registeredLocalClient
              Except.ok (con.tempSet ("reg.state") none)

/-- The keys of the `commands` dispatch table of clientcommands.js. -/
def knownCommands : List String :=
  [("CAP"), ("PASS"), ("USER"), ("NOTICE"), ("PRIVMSG"), ("NICK"),
   ("PING"), ("QUIT"), ("BOUNCER"), ("KILL"), ("RELOAD"), ("DEB")]

mutual

/-- `run(msg, con)` (clientcommands.js lines 18-61): the downstream state
machine.  Order of the gates: the unconditional verbs DEB / RELOAD / PING;
the CAP queueing gate; the pre-registration gate (allowlist, `reg.state`
initialization, handler, `maybeProcessRegistration`); the registered
dispatch (unknown verbs forward upstream).  The fuel only bounds the
`CAP END` → `processConQueue` → `run` recursion. -/
def run (env : Env) : Nat → Msg → Conn → RunRes
  | 0, _, con => Except.error (con, ("out of fuel"))
  | fuel + 1, msg, con =>
    let command := jsToUpper msg.command
    if command = ("DEB") ∨ command = ("RELOAD") ∨ command = ("PING") then
      execCommand env fuel msg con
    else if cappingSet con = true ∧ command ≠ ("CAP") ∧ msg.source ≠ some ("queue") then
      let messageQueue := regQueueOf con
      Except.ok
        (con.tempSet ("reg.queue") (some (TempVal.queue (messageQueue ++ [msg.to1459]))),
         false)
    else if con.state.netRegistered = false then
      if command ∉ [("USER"), ("NICK"), ("PASS"), ("CAP")] then Except.ok (con, false)
      else
        let con := if (con.tempGet ("reg.state")).isNone
          then con.tempSet ("reg.state") (some (TempVal.reg ("") ("") ("")))
          else con
        match execCommand env fuel msg con with
        | Except.error e => Except.error e
        | Except.ok (con, _) =>
          match maybeProcessRegistration env con with
          | Except.error e => Except.error e
          | Except.ok con => Except.ok (con, false)
    else
      if command ∈ knownCommands then execCommand env fuel msg con
      else Except.ok (con, true)
termination_by structural fuel _ _ => fuel

/-- `commands[command](msg, con)`: dispatch on the uppercased verb; a
missing table entry called as a function raises. -/
def execCommand (env : Env) : Nat → Msg → Conn → RunRes
  | 0, _, con => Except.error (con, ("out of fuel"))
  | fuel + 1, msg, con =>
    let c := jsToUpper msg.command
    if c = ("CAP") then commands.CAP env fuel msg con
    else if c = ("PASS") then commands.PASS msg con
    else if c = ("USER") then commands.USER msg con
    else if c = ("NOTICE") then commands.NOTICE msg con
    else if c = ("PRIVMSG") then commands.PRIVMSG msg con
    else if c = ("NICK") then commands.NICK msg con
    else if c = ("PING") then commands.PING msg con
    else if c = ("QUIT") then commands.QUIT msg con
    else if c = ("BOUNCER") then commands.BOUNCER env msg con
    else if c = ("KILL") then commands.KILL msg con
    else if c = ("RELOAD") then commands.RELOAD msg con
    else if c = ("DEB") then commands.DEB msg con
    else Except.error (con, ("TypeError: commands[command] is not a function"))
termination_by structural fuel _ _ => fuel

/-- `commands.CAP` (clientcommands.js lines 145-173).  The four
sub-command blocks test the same value sequentially (mutually exclusive),
embedded as an if-chain; the available-caps list is collected from the
`available_caps` hook channel, here `env.availableCaps`.  LIST and REQ
invoke the Array methods `join` / `concat` on `con.state.caps`. -/
def commands.CAP (env : Env) : Nat → Msg → Conn → RunRes
  | 0, _, con => Except.error (con, ("out of fuel"))
  | fuel + 1, msg, con =>
    let availableCaps := env.availableCaps
    let p0 := mParamU msg 0 ("")
    if p0 = ("LIST") then
      match con.state.caps.join (" ") with
      | Except.error e => Except.error (con, e)
      | Except.ok joined =>
        Except.ok (con.writeMsg ("CAP") [("*"), ("LIST"), joined], false)
    else if p0 = ("LS") then
      let con := con.tempSet ("capping") (some (TempVal.str (mParamU msg 1 ("301"))))
      Except.ok
        (con.writeMsg ("CAP") [("*"), ("LS"), String.intercalate (" ") availableCaps], false)
    else if p0 = ("REQ") then
      let requested := jsSplit (mParam msg 1 ("")) ' '
      let matched := requested.filter (fun cap => availableCaps.contains cap)
      match con.state.caps.concat matched with
      | Except.error e => Except.error (con, e)
      | Except.ok newCaps =>
        let con := { con with state := { con.state with caps := newCaps } }
        -- await con.state.save(): persistence only
        Except.ok
          (con.writeMsg ("CAP") [("*"), ("ACK"), String.intercalate (" ") matched], false)
    else if p0 = ("END") then
      match processConQueue env fuel con with
      | Except.error e => Except.error e
      | Except.ok con => Except.ok (con.tempSet ("capping") none, false)
    else Except.ok (con, false)
termination_by structural fuel _ _ => fuel

/-- `processConQueue(con)` (clientcommands.js lines 441-462): shift a line
off `reg.queue`, write the shrunk queue back, re-parse, re-dispatch with
`source=queue`, and re-read the queue; when the queue is empty delete the
key. -/
def processConQueue (env : Env) : Nat → Conn → Except (Conn × String) Conn
  | 0, con => Except.error (con, ("out of fuel"))
  | fuel + 1, con =>
    match regQueueOf con with
    | [] => Except.ok (con.tempSet ("reg.queue") none)
    | line :: rest =>
      let con := con.tempSet ("reg.queue") (some (TempVal.queue rest))
      if line = ("") then processConQueue env fuel con
      else match ircLineParser line with
        | none => processConQueue env fuel con
        | some m =>
          match run env fuel { m with source := some ("queue") } con with
          | Except.error e => Except.error e
          | Except.ok (con, _) => processConQueue env fuel con
termination_by structural fuel _ => fuel

end

/-- The specification-side drain: process exactly the lines that were in
`reg.queue` when `CAP END` arrived, in arrival order — write back the
shrinking queue, skip empty or unparsable lines, dispatch the rest through
`run` tagged `source=queue` — then delete the key.  `processConQueue`
re-reads the queue after every dispatch; proving it equal to this fold
shows no dispatched line ever re-enqueues. -/
def drainSpec (env : Env) : List String → Conn → Except (Conn × String) Conn
  | [], con => Except.ok (con.tempSet ("reg.queue") none)
  | line :: rest, con =>
    let con := con.tempSet ("reg.queue") (some (TempVal.queue rest))
    if line = ("") then drainSpec env rest con
    else match ircLineParser line with
      | none => drainSpec env rest con
      | some m =>
        match run env 2 { m with source := some ("queue") } con with
        | Except.error e => Except.error e
        | Except.ok (con, _) => drainSpec env rest con

/-! Witness fixtures: a concrete environment and fresh downstream
connection used to instantiate the hypothesised theorems. -/
def envW : Env :=
  { availableCaps := [("server-time")]
    authUser := fun _ _ => none
    authUserNetwork := fun _ _ _ => none
    getNetworkByName := fun _ _ => none
    getUserNetworks := fun _ => []
    findUsersOutgoingConnection := fun _ _ => none }

def conW : Conn :=
  { state := ConnectionState.new ("c1")
    upstream := none
    out := []
    events := []
    closed := false }

def conCappingW : Conn := conW.tempSet ("capping") (some (TempVal.str ("302")))

def msgJoinW : Msg := { command := ("JOIN"), params := [("#foo")], source := none }

def conRegW : Conn :=
  conW.tempSet ("reg.state") (some (TempVal.reg ("bob") ("bob") ("alice/freenode:pw")))

def upW : ConnectionState :=
  { ConnectionState.new ("u1") with
    nick := ("alice"), connected := true, netRegistered := true,
    authUserId := 4, authNetworkId := 9,
    linkedIncomingConIds := [("c1"), ("c2"), ("c3")] }

def conUpW : Conn :=
  { state := { ConnectionState.new ("c1") with authUserId := 4, netRegistered := true }
    upstream := some upW
    out := []
    events := []
    closed := false }

def msgBncW : Msg :=
  { command := ("PRIVMSG"), params := [("*bnc"), ("hello")], source := none }

def msgCapReqW : Msg :=
  { command := ("CAP"), params := [("REQ"), ("server-time")], source := none }

def netW : Network :=
  { id := 9, user_id := 4, name := ("freenode"), host := ("irc.example.com"),
    port := 6667, tls := false }

def envNetsW : Env := { envW with getUserNetworks := fun _ => [netW] }

def conAuthedW : Conn :=
  { conW with state := { conW.state with authUserId := 4, netRegistered := true } }

def msgListNetsW : Msg :=
  { command := ("BOUNCER"), params := [("LISTNETWORKS")], source := none }

def upStW : ConnectionState := { ConnectionState.new ("u1") with connected := true }

def envDelW : Env :=
  { envW with
    getNetworkByName := fun _ _ => some netW
    findUsersOutgoingConnection := fun _ _ => some upStW }

def msgDelBufW : Msg :=
  { command := ("BOUNCER"), params := [("DELBUFFER"), ("freenode"), ("#nope")], source := none }

def bufAW : IrcBuffer :=
  { name := ("#a"), key := (""), joined := true, topic := ("t"),
    isChannel := true, lastSeen := 5 }

def st6W : ConnectionState :=
  { ConnectionState.new ("c6") with
    bindHost := ("10.0.0.1")
    loaded := true
    buffers := [(("#a"), bufAW)] }

/-- The buffer-map invariant (§8, invariant 4): every stored entry is keyed
by the lowercase of its buffer's name, and — as for any JS object — keys
are unique. -/
def BufMapInv (s : ConnectionState) : Prop :=
  (∀ p ∈ s.buffers, p.1 = jsToLower p.2.name) ∧ (s.buffers.map Prod.fst).Nodup

def st7W : ConnectionState :=
  { ConnectionState.new ("c7") with buffers := [(("#a"), bufAW)] }

def msgCapEndW : Msg := { command := ("CAP"), params := [("END")], source := none }

def conQW : Conn :=
  conCappingW.tempSet ("reg.queue") (some (TempVal.queue [("JOIN #foo")]))

theorem objGet_objSet_self {α : Type} (m : List (String × α)) (k : String) (v : α) :
    objGet (objSet m k v) k = some v := by
  induction m with
  | nil => simp [objGet, objSet]
  | cons hd tl ih =>
    obtain ⟨k', v'⟩ := hd
    by_cases h : k' = k
    · simp [objGet, objSet, h]
    · simp [objGet, objSet, h, ih]

theorem objGet_objSet_ne {α : Type} (m : List (String × α)) (k k' : String) (v : α)
    (h : k' ≠ k) : objGet (objSet m k v) k' = objGet m k' := by
  induction m with
  | nil => simp [objGet, objSet, Ne.symm h]
  | cons hd tl ih =>
    obtain ⟨k0, v0⟩ := hd
    by_cases h0 : k0 = k
    · subst h0
      simp [objGet, objSet, Ne.symm h]
    · simp [objGet, objSet, h0, ih]

theorem objGet_objDel_self {α : Type} (m : List (String × α)) (k : String) :
    objGet (objDel m k) k = none := by
  induction m with
  | nil => simp [objGet, objDel]
  | cons hd tl ih =>
    obtain ⟨k0, v0⟩ := hd
    by_cases h0 : k0 = k
    · simp [objDel, h0, ih]
    · simp [objDel, objGet, h0, ih]

theorem objGet_objDel_ne {α : Type} (m : List (String × α)) (k k' : String)
    (h : k' ≠ k) : objGet (objDel m k) k' = objGet m k' := by
  induction m with
  | nil => simp [objDel]
  | cons hd tl ih =>
    obtain ⟨k0, v0⟩ := hd
    by_cases h0 : k0 = k
    · subst h0
      simp [objDel, objGet, Ne.symm h, ih]
    · simp [objDel, objGet, h0, ih]

theorem foldl_jsSetAdd_of_nodup :
    ∀ (l acc : List String), l.Nodup → (∀ x ∈ l, x ∉ acc) →
      l.foldl jsSetAdd acc = acc ++ l
  | [], acc, _, _ => by simp
  | x :: xs, acc, h, hdisj => by
    have hx : x ∉ xs := (List.nodup_cons.mp h).1
    have hxs : xs.Nodup := (List.nodup_cons.mp h).2
    have hxacc : x ∉ acc := hdisj x (List.mem_cons_self x xs)
    have hstep : jsSetAdd acc x = acc ++ [x] := by simp [jsSetAdd, hxacc]
    have hdisj2 : ∀ y ∈ xs, y ∉ acc ++ [x] := by
      intro y hy
      simp only [List.mem_append, List.mem_singleton]
      rintro (hyacc | rfl)
      · exact hdisj y (List.mem_cons_of_mem x hy) hyacc
      · exact hx hy
    calc (x :: xs).foldl jsSetAdd acc
        = xs.foldl jsSetAdd (acc ++ [x]) := by simp [List.foldl_cons, hstep]
      _ = (acc ++ [x]) ++ xs := foldl_jsSetAdd_of_nodup xs (acc ++ [x]) hxs hdisj2
      _ = acc ++ (x :: xs) := by simp

theorem jsNewSet_of_nodup (l : List String) (h : l.Nodup) : jsNewSet l = l := by
  simpa [jsNewSet] using foldl_jsSetAdd_of_nodup l [] h (by simp)

/-! Projection lemmas: socket writes, events and `close` do not touch the
durable state; `tempSet` touches only the addressed key. -/
@[simp] theorem state_writeMsg (c : Conn) (cmd : String) (ps : List String) :
    (c.writeMsg cmd ps).state = c.state := rfl

@[simp] theorem state_writeMsgFrom (c : Conn) (src cmd : String) (ps : List String) :
    (c.writeMsgFrom src cmd ps).state = c.state := rfl

@[simp] theorem state_writeFromBnc (c : Conn) (cmd : String) (ps : List String) :
    (c.writeFromBnc cmd ps).state = c.state := rfl

@[simp] theorem state_writeStatus (c : Conn) (t : String) :
    (c.writeStatus t).state = c.state := rfl

@[simp] theorem state_event (c : Conn) (e : Event) :
    (c.event e).state = c.state := rfl

@[simp] theorem state_close (c : Conn) :
    (c.close).state = c.state := rfl

@[simp] theorem tempGet_writeMsg (c : Conn) (cmd : String) (ps : List String) (k : String) :
    (c.writeMsg cmd ps).tempGet k = c.tempGet k := rfl

@[simp] theorem tempGet_writeMsgFrom (c : Conn) (src cmd : String) (ps : List String)
    (k : String) : (c.writeMsgFrom src cmd ps).tempGet k = c.tempGet k := rfl

@[simp] theorem tempGet_writeFromBnc (c : Conn) (cmd : String) (ps : List String)
    (k : String) : (c.writeFromBnc cmd ps).tempGet k = c.tempGet k := rfl

@[simp] theorem tempGet_writeStatus (c : Conn) (t : String) (k : String) :
    (c.writeStatus t).tempGet k = c.tempGet k := rfl

@[simp] theorem tempGet_event (c : Conn) (e : Event) (k : String) :
    (c.event e).tempGet k = c.tempGet k := rfl

@[simp] theorem tempGet_close (c : Conn) (k : String) :
    (c.close).tempGet k = c.tempGet k := rfl

theorem tempGet_tempSet_ne (c : Conn) (k k' : String) (v : Option TempVal)
    (h : k' ≠ k) : (c.tempSet k v).tempGet k' = c.tempGet k' := by
  cases v with
  | none => simp [Conn.tempSet, Conn.tempGet, objGet_objDel_ne _ _ _ h]
  | some w => simp [Conn.tempSet, Conn.tempGet, objGet_objSet_ne _ _ _ _ h]

theorem tempGet_tempSet_self (c : Conn) (k : String) (v : TempVal) :
    (c.tempSet k (some v)).tempGet k = some v := by
  simp [Conn.tempSet, Conn.tempGet, objGet_objSet_self]

theorem tempGet_tempSet_none (c : Conn) (k : String) :
    (c.tempSet k none).tempGet k = none := by
  simp [Conn.tempSet, Conn.tempGet, objGet_objDel_self]

/-- C1: on a downstream connection whose `tempData["capping"]` is set, for
every inbound message whose uppercased verb is not CAP, that is not tagged
`source=queue`, and that is not one of the unconditional verbs DEB, RELOAD,
PING, `run` appends the message's raw wire line to the end of the
`tempData["reg.queue"]` sequence (preserving arrival order), returns
"do not forward" (`false`), and executes no verb handler: the result is
exactly the enqueue of `msg.to1459` and nothing else. -/
theorem c1_cap_gate_queues (env : Env) (fuel : Nat) (msg : Msg) (con : Conn)
    (hcap : cappingSet con = true)
    (hverb : jsToUpper msg.command ≠ ("CAP"))
    (hsrc : msg.source ≠ some ("queue"))
    (hdeb : jsToUpper msg.command ≠ ("DEB"))
    (hreload : jsToUpper msg.command ≠ ("RELOAD"))
    (hping : jsToUpper msg.command ≠ ("PING")) :
    run env (fuel + 1) msg con =
      Except.ok
        (con.tempSet ("reg.queue")
          (some (TempVal.queue (regQueueOf con ++ [msg.to1459]))), false) := by
  have h1 : ¬(jsToUpper msg.command = ("DEB") ∨ jsToUpper msg.command = ("RELOAD") ∨
      jsToUpper msg.command = ("PING")) := by
    push_neg
    exact ⟨hdeb, hreload, hping⟩
  have h2 : cappingSet con = true ∧ jsToUpper msg.command ≠ ("CAP") ∧
      msg.source ≠ some ("queue") := ⟨hcap, hverb, hsrc⟩
  simp only [run]
  rw [if_neg h1, if_pos h2]

/-- Witness for C1: `JOIN #foo` arriving during the CAP window of a fresh
connection is queued verbatim. -/
theorem c1_cap_gate_queues_witness :
    run envW 1 msgJoinW conCappingW =
      Except.ok
        (conCappingW.tempSet ("reg.queue")
          (some (TempVal.queue (regQueueOf conCappingW ++ [msgJoinW.to1459]))), false) :=
  c1_cap_gate_queues envW 0 msgJoinW conCappingW (by decide) (by decide) (by decide)
    (by decide) (by decide) (by decide)

/-- C2 counterexample: a `PING` arriving on a connection with
`netRegistered=false` (capping unset) is NOT silently dropped — the
unconditional-verb branch of `run` executes the PING handler and emits a
`PONG` reply, although `PING` is not one of USER / NICK / PASS / CAP.  This
refutes the claim as stated, which admits no exception for the
unconditional verbs DEB, RELOAD, PING. -/
theorem c2_counterexample :
    conW.state.netRegistered = false ∧
    jsToUpper ("PING") ∉ [("USER"), ("NICK"), ("PASS"), ("CAP")] ∧
    run envW 2 { command := ("PING"), params := [("tok")], source := none } conW =
      Except.ok (conW.writeMsg ("PONG") [("tok")], false) ∧
    conW.writeMsg ("PONG") [("tok")] ≠ conW :=
  ⟨by decide, by decide, by decide, by decide⟩

/-- C2 (amended with the unconditional verbs excepted): for every inbound
message with `netRegistered=false`, not caught by the CAP gate, and whose
uppercased verb is none of DEB, RELOAD, PING: `run` executes the verb
handler only if the verb is one of USER, NICK, PASS, CAP, and returns
"do not forward" for every other verb with the connection untouched; for
an allowed verb it first initializes `tempData["reg.state"]` to the empty
triple when absent, then executes the handler, then calls
`maybeProcessRegistration`, and returns "do not forward". -/
theorem c2_preregistration_gate (env : Env) (fuel : Nat) (msg : Msg) (con : Conn)
    (hreg : con.state.netRegistered = false)
    (hdeb : jsToUpper msg.command ≠ ("DEB"))
    (hreload : jsToUpper msg.command ≠ ("RELOAD"))
    (hping : jsToUpper msg.command ≠ ("PING"))
    (hgate : ¬(cappingSet con = true ∧ jsToUpper msg.command ≠ ("CAP") ∧
        msg.source ≠ some ("queue"))) :
    (jsToUpper msg.command ∉ [("USER"), ("NICK"), ("PASS"), ("CAP")] →
        run env (fuel + 1) msg con = Except.ok (con, false)) ∧
    (jsToUpper msg.command ∈ [("USER"), ("NICK"), ("PASS"), ("CAP")] →
        run env (fuel + 1) msg con =
          (let con1 := if (con.tempGet ("reg.state")).isNone
              then con.tempSet ("reg.state") (some (TempVal.reg ("") ("") ("")))
              else con
           match execCommand env fuel msg con1 with
           | Except.error e => Except.error e
           | Except.ok (con2, _) =>
             match maybeProcessRegistration env con2 with
             | Except.error e => Except.error e
             | Except.ok con3 => Except.ok (con3, false))) := by
  have h1 : ¬(jsToUpper msg.command = ("DEB") ∨ jsToUpper msg.command = ("RELOAD") ∨
      jsToUpper msg.command = ("PING")) := by
    push_neg
    exact ⟨hdeb, hreload, hping⟩
  constructor
  · intro hmem
    simp only [run]
    rw [if_neg h1, if_neg hgate, if_pos hreg, if_pos hmem]
  · intro hmem
    simp only [run]
    rw [if_neg h1, if_neg hgate, if_pos hreg, if_neg (not_not_intro hmem)]

/-- Witness for C2 (amended): a pre-registration `JOIN` is dropped with no
reply and no state change. -/
theorem c2_preregistration_gate_witness :
    run envW 1 msgJoinW conW = Except.ok (conW, false) :=
  (c2_preregistration_gate envW 0 msgJoinW conW (by decide) (by decide) (by decide)
    (by decide) (by decide)).1 (by decide)

/-- C3: `maybeProcessRegistration` performs no registration work (returns
with the connection unchanged) unless `reg.state.nick`, `reg.state.user`
and `reg.state.pass` are all non-empty and `capping` is unset; when it does
proceed and the credential lookup (`authUserNetwork` when a network name
was parsed from the PASS triple, `authUser` otherwise) returns null, it
writes the line `ERROR :Invalid password` to the client and closes the
connection, leaving `authUserId` and `authNetworkId` unset (the state is
untouched: only the output and the closed flag change). -/
theorem c3_registration_guard_and_auth_failure (env : Env) (con : Conn)
    (nick user pass : String)
    (hreg : getRegState con = some (nick, user, pass)) :
    ((nick = ("") ∨ user = ("") ∨ pass = ("") ∨ cappingSet con = true) →
        maybeProcessRegistration env con = Except.ok con) ∧
    (∀ username networkName password,
      nick ≠ ("") → user ≠ ("") → pass ≠ ("") → cappingSet con = false →
      parsePass pass = some (username, networkName, password) →
      ((networkName ≠ ("") → env.authUserNetwork username password networkName = none →
          maybeProcessRegistration env con =
            Except.ok ((con.writeMsg ("ERROR") [("Invalid password")]).close)) ∧
       (networkName = ("") → env.authUser username password = none →
          maybeProcessRegistration env con =
            Except.ok ((con.writeMsg ("ERROR") [("Invalid password")]).close)))) ∧
    ((con.writeMsg ("ERROR") [("Invalid password")]).close).state = con.state ∧
    OutMsg.render { pfx := none, command := ("ERROR"), params := [("Invalid password")] }
      = ("ERROR :Invalid password") := by
  refine ⟨?_, ?_, rfl, by decide⟩
  · intro hguard
    simp only [maybeProcessRegistration, hreg]
    rw [if_pos hguard]
  · intro username networkName password hnick huser hpass hcap hparse
    have hguardneg : ¬(nick = ("") ∨ user = ("") ∨ pass = ("") ∨ cappingSet con = true) := by
      push_neg
      exact ⟨hnick, huser, hpass, by simp [hcap]⟩
    constructor
    · intro hne hauth
      simp only [maybeProcessRegistration, hreg]
      rw [if_neg hguardneg, hparse]
      simp only [if_pos hne, hauth]
    · intro heq hauth
      simp only [maybeProcessRegistration, hreg]
      rw [if_neg hguardneg, hparse]
      simp only [if_neg (not_not_intro heq), hauth]

/-- Witness for C3: with the triple `bob / bob / alice/freenode:pw` and a
credential store that rejects everything, registration fails with
`ERROR :Invalid password` and a closed connection. -/
theorem c3_registration_guard_and_auth_failure_witness :
    maybeProcessRegistration envW conRegW =
      Except.ok ((conRegW.writeMsg ("ERROR") [("Invalid password")]).close) :=
  (((c3_registration_guard_and_auth_failure envW conRegW ("bob") ("bob")
      ("alice/freenode:pw") (by decide)).2.1 ("alice") ("freenode") ("pw")
      (by decide) (by decide) (by decide) (by decide) (by decide)).1 (by decide) (by rfl))

/-- C10: on an authenticated downstream with an attached upstream, a
`PRIVMSG` targeted at `*bnc` is first echoed to every sibling downstream of
the same upstream (the sender excluded, with the upstream's current nick as
prefix) — the echoes precede the interception — and is then handed to
ClientControl; the handler returns `false`, and the result records no
message-store write and no upstream forward. -/
theorem c10_privmsg_bnc_intercept (msg : Msg) (con : Conn) (up : ConnectionState)
    (hup : con.upstream = some up)
    (hauth : con.state.authUserId ≠ 0)
    (htarget : msg.params.getD 0 ("") = ("*bnc")) :
    commands.PRIVMSG msg con =
      Except.ok
        (({ con with events := con.events ++
            (forEachClientEcho up con.state.conId
              (fun cid => Event.echo cid up.nick ("PRIVMSG")
                (msg.params.getD 0 ("")) (msg.params.getD 1 ("")))) }).event
          (Event.clientControl msg), false) := by
  simp only [commands.PRIVMSG, hup]
  rw [if_pos ⟨htarget, hauth⟩]

/-- Witness for C10: two siblings receive the echo, then ClientControl
takes the message. -/
theorem c10_privmsg_bnc_intercept_witness :
    commands.PRIVMSG msgBncW conUpW =
      Except.ok
        (({ conUpW with events := conUpW.events ++
            (forEachClientEcho upW conUpW.state.conId
              (fun cid => Event.echo cid upW.nick ("PRIVMSG")
                (msgBncW.params.getD 0 ("")) (msgBncW.params.getD 1 ("")))) }).event
          (Event.clientControl msgBncW), false) :=
  c10_privmsg_bnc_intercept msgBncW conUpW upW (by rfl) (by decide) (by decide)

/-- C5 (code bug): `CAP REQ :server-time` on a fresh downstream connection
(server-time available) raises `TypeError` instead of acknowledging: the
constructor makes `ConnectionState.caps` a JS Set (part_000, line 37) while
`commands.CAP` invokes the Array method `concat` on it (clientcommands.js,
line 162), so the handler throws before anything is appended, saved or
ACKed — both at the handler and through the full `run` dispatch. -/
theorem c5_cap_req_typeerror :
    (ConnectionState.new ("c1")).caps = CapsValue.set [] ∧
    commands.CAP envW 1 msgCapReqW conW =
      Except.error (conW, ("TypeError: con.state.caps.concat is not a function")) ∧
    run envW 3 msgCapReqW conW =
      Except.error
        (conW.tempSet ("reg.state") (some (TempVal.reg ("") ("") (""))),
         ("TypeError: con.state.caps.concat is not a function")) :=
  ⟨by decide, by decide, by decide⟩

/-- C8 (code bug): for a user owning one network with `tls=false` and no
live upstream, `BOUNCER LISTNETWORKS` emits the payload
`network=freenode;host=irc.example.com;port=6667;1;host=irc.example.com;state=disconnect`:
the tls field is the bare string `1` — `'tls=' + net.tls ? '1' : '0'`
parses as `('tls=' + net.tls) ? '1' : '0'`, and a nonempty string is
truthy, so `1` is pushed even though `tls` is false — and `host=` appears
twice; the terminator line `BOUNCER listnetwork RPL_OK` follows. -/
theorem c8_listnetworks_bug :
    commands.BOUNCER envNetsW msgListNetsW conAuthedW =
      Except.ok
        ((conAuthedW.writeMsg ("BOUNCER")
            [("listnetworks"),
             ("network=freenode;host=irc.example.com;port=6667;1;host=irc.example.com;state=disconnect")]).writeMsg
          ("BOUNCER") [("listnetwork"), ("RPL_OK")], false) := by decide

theorem objSet_absent {α : Type} (m : List (String × α)) (k : String) (v : α)
    (h : ∀ q ∈ m, q.1 ≠ k) : objSet m k v = m ++ [(k, v)] := by
  induction m with
  | nil => rfl
  | cons hd tl ih =>
    have hhd : hd.1 ≠ k := h hd (List.mem_cons_self hd tl)
    simp only [objSet, if_neg hhd]
    rw [ih (fun q hq => h q (List.mem_cons_of_mem hd hq))]
    simp

theorem mem_objSet_weak {α : Type} (m : List (String × α)) (k : String) (v : α)
    (q : String × α) (hq : q ∈ objSet m k v) : q = (k, v) ∨ q ∈ m := by
  induction m with
  | nil =>
    simp only [objSet, List.mem_singleton] at hq
    exact Or.inl hq
  | cons hd tl ih =>
    obtain ⟨k0, v0⟩ := hd
    by_cases h0 : k0 = k
    · subst h0
      simp only [objSet, if_true, List.mem_cons, eq_self_iff_true] at hq
      rcases hq with h | htl
      · exact Or.inl h
      · exact Or.inr (List.mem_cons_of_mem _ htl)
    · simp only [objSet, if_neg h0, List.mem_cons] at hq
      rcases hq with h | htl
      · exact Or.inr (List.mem_cons.mpr (Or.inl h))
      · rcases ih htl with h | h
        · exact Or.inl h
        · exact Or.inr (List.mem_cons_of_mem _ h)

theorem keys_objSet_subset {α : Type} (m : List (String × α)) (k : String) (v : α)
    (k' : String) (h : k' ∈ (objSet m k v).map Prod.fst) :
    k' = k ∨ k' ∈ m.map Prod.fst := by
  rcases List.mem_map.mp h with ⟨q, hq, rfl⟩
  rcases mem_objSet_weak m k v q hq with rfl | hm
  · exact Or.inl rfl
  · exact Or.inr (List.mem_map.mpr ⟨q, hm, rfl⟩)

theorem objSet_keys_nodup {α : Type} (m : List (String × α)) (k : String) (v : α)
    (h : (m.map Prod.fst).Nodup) : ((objSet m k v).map Prod.fst).Nodup := by
  induction m with
  | nil => simp [objSet]
  | cons hd tl ih =>
    obtain ⟨k0, v0⟩ := hd
    have hk0 : k0 ∉ tl.map Prod.fst := (List.nodup_cons.mp h).1
    have htl : (tl.map Prod.fst).Nodup := (List.nodup_cons.mp h).2
    by_cases h0 : k0 = k
    · subst h0
      simpa [objSet] using h
    · simp only [objSet, if_neg h0, List.map_cons, List.nodup_cons]
      refine ⟨?_, ih htl⟩
      intro hmem
      rcases keys_objSet_subset tl k v k0 hmem with rfl | hin
      · exact h0 rfl
      · exact hk0 hin

theorem objDel_sublist {α : Type} (m : List (String × α)) (k : String) :
    (objDel m k).Sublist m := by
  induction m with
  | nil => simp [objDel]
  | cons hd tl ih =>
    obtain ⟨k0, v0⟩ := hd
    by_cases h0 : k0 = k
    · simpa [objDel, h0] using ih.cons (k0, v0)
    · simpa [objDel, h0] using ih.cons₂ (k0, v0)

theorem mem_objDel {α : Type} (m : List (String × α)) (k : String) (q : String × α)
    (hq : q ∈ objDel m k) : q ∈ m :=
  (objDel_sublist m k).mem hq

theorem objDel_keys_nodup {α : Type} (m : List (String × α)) (k : String)
    (h : (m.map Prod.fst).Nodup) : ((objDel m k).map Prod.fst).Nodup :=
  h.sublist ((objDel_sublist m k).map Prod.fst)

theorem objGet_mem_of_nodup {α : Type} (m : List (String × α)) (k : String) (v : α)
    (hmem : (k, v) ∈ m) (hnodup : (m.map Prod.fst).Nodup) : objGet m k = some v := by
  induction m with
  | nil => cases hmem
  | cons hd tl ih =>
    obtain ⟨k0, v0⟩ := hd
    rcases List.mem_cons.mp hmem with heq | htl
    · injection heq with h1 h2
      subst h1
      subst h2
      simp [objGet]
    · have hk : ¬k0 = k := by
        intro hh
        subst hh
        exact (List.nodup_cons.mp hnodup).1 (List.mem_map.mpr ⟨(k0, v), htl, rfl⟩)
      simp [objGet, hk, ih htl (List.nodup_cons.mp hnodup).2]

/-- C9 (code bug): `BOUNCER DELBUFFER freenode #nope` with a live upstream
that has no buffer `#nope` writes the `RPL_OK` reply but then — the
missing-buffer branch does not return — dereferences the missing buffer
and raises `TypeError`, instead of returning cleanly. -/
theorem c9_delbuffer_crash :
    upStW.getBuffer ("#nope") = none ∧
    commands.BOUNCER envDelW msgDelBufW conAuthedW =
      Except.error
        (conAuthedW.writeMsg ("BOUNCER")
          [("delbuffer"), ("freenode"), ("#nope"), ("RPL_OK")],
         ("TypeError: cannot read property name of undefined")) :=
  ⟨by decide, by decide⟩

theorem fromObj_eq_reset (b : IrcBuffer) :
    IrcBuffer.fromObj b = { b with lastSeen := 0 } := rfl

theorem foldl_addBuffer_obj :
    ∀ (l : List (String × IrcBuffer)) (acc : ConnectionState),
      (∀ p ∈ l, p.1 = jsToLower p.2.name) →
      (∀ p ∈ l, ∀ q ∈ acc.buffers, q.1 ≠ p.1) →
      (l.map Prod.fst).Nodup →
      l.foldl (fun st p => (st.addBuffer (BufferArg.obj p.2) none).1) acc =
        { acc with buffers := acc.buffers ++ l.map (fun p => (p.1, IrcBuffer.fromObj p.2)) }
  | [], acc, _, _, _ => by simp
  | p :: rest, acc, hinv, hdisj, hnodup => by
    rw [List.map_cons, List.nodup_cons] at hnodup
    have hp1 : p.1 ∉ rest.map Prod.fst := hnodup.1
    have hkey : jsToLower p.2.name = p.1 := (hinv p (List.mem_cons_self p rest)).symm
    have hstep : (acc.addBuffer (BufferArg.obj p.2) none).1 =
        { acc with buffers := acc.buffers ++ [(p.1, IrcBuffer.fromObj p.2)] } := by
      simp only [ConnectionState.addBuffer]
      rw [show (IrcBuffer.fromObj p.2).name = p.2.name from rfl, hkey,
        objSet_absent acc.buffers p.1 _
          (fun q hq => hdisj p (List.mem_cons_self p rest) q hq)]
    have hinv2 : ∀ q ∈ rest, q.1 = jsToLower q.2.name :=
      fun q hq => hinv q (List.mem_cons_of_mem p hq)
    have hdisj2 : ∀ p' ∈ rest, ∀ q ∈ acc.buffers ++ [(p.1, IrcBuffer.fromObj p.2)],
        q.1 ≠ p'.1 := by
      intro p' hp' q hq
      rcases List.mem_append.mp hq with h | h
      · exact hdisj p' (List.mem_cons_of_mem _ hp') q h
      · have hq1 : q.1 = p.1 := by
          rcases List.mem_singleton.mp h with rfl
          rfl
        rw [hq1]
        intro hh
        exact hp1 (by rw [hh]; exact List.mem_map.mpr ⟨p', hp', rfl⟩)
    rw [List.foldl_cons, hstep,
      foldl_addBuffer_obj rest _ hinv2 hdisj2 hnodup.2]
    simp

/-- C6 counterexample: `save()` then `load()` does NOT restore every field.
For a state with `bindHost = 10.0.0.1` and a buffer whose `lastSeen = 5`,
the reloaded record has `bindHost` empty (line 84 of part_000 saves
`bind_host: ''` unconditionally) and the buffer's `lastSeen` reset to 0
(`IrcBuffer.fromObj` does not copy it), so the round-trip is not the
identity. -/
theorem c6_roundtrip_counterexample :
    st6W.bindHost = ("10.0.0.1") ∧
    (st6W.loadRow (some (st6W.saveRow 0))).bindHost = ("") ∧
    (st6W.getBuffer ("#a")).map IrcBuffer.lastSeen = some 5 ∧
    ((st6W.loadRow (some (st6W.saveRow 0))).getBuffer ("#a")).map IrcBuffer.lastSeen
      = some 0 ∧
    st6W.loadRow (some (st6W.saveRow 0)) ≠ st6W :=
  ⟨by decide, by decide, by decide, by decide, by decide⟩

/-- C6 (amended): `save()` followed by `load()` on the same `conId` restores
every §3 field from the saved record EXCEPT that `bindHost` is always
restored as the empty string and every buffer's `lastSeen` is reset to 0
(`loaded` is set by `load`); stated for well-formed records — caps stored
as a duplicate-free Set, buffer keys lowercased and unique, linked ids
duplicate-free. -/
theorem c6_roundtrip_amended (s : ConnectionState) (now : Nat) (cs : List String)
    (hcaps : s.caps = CapsValue.set cs) (hcsnodup : cs.Nodup)
    (hbuf : ∀ p ∈ s.buffers, p.1 = jsToLower p.2.name)
    (hkeys : (s.buffers.map Prod.fst).Nodup)
    (hlink : s.linkedIncomingConIds.Nodup) :
    s.loadRow (some (s.saveRow now)) =
      { s with
        loaded := true
        bindHost := ("")
        buffers := s.buffers.map (fun p => (p.1, { p.2 with lastSeen := 0 })) } := by
  simp only [ConnectionState.loadRow, ConnectionState.saveRow]
  rw [hcaps]
  simp only [CapsValue.arrayFrom]
  rw [jsNewSet_of_nodup cs hcsnodup, jsNewSet_of_nodup s.linkedIncomingConIds hlink,
    foldl_addBuffer_obj s.buffers _ hbuf
      (fun p _ q hq => absurd hq (List.not_mem_nil q)) hkeys]
  rw [← hcaps]
  simp [fromObj_eq_reset]

/-- Witness for C6 (amended): a concrete well-formed record round-trips to
itself with `bindHost` emptied and `lastSeen` zeroed. -/
theorem c6_roundtrip_amended_witness :
    st6W.loadRow (some (st6W.saveRow 7)) =
      { st6W with
        loaded := true
        bindHost := ("")
        buffers := st6W.buffers.map (fun p => (p.1, { p.2 with lastSeen := 0 })) } :=
  c6_roundtrip_amended st6W 7 [] (by decide) (by decide) (by decide) (by decide) (by decide)

theorem bufMapInv_objSet (s : ConnectionState) (b : IrcBuffer) (h : BufMapInv s) :
    BufMapInv { s with buffers := objSet s.buffers (jsToLower b.name) b } := by
  constructor
  · intro p hp
    rcases mem_objSet_weak _ _ _ p hp with rfl | hm
    · rfl
    · exact h.1 p hm
  · exact objSet_keys_nodup _ _ _ h.2

theorem bufMapInv_objDel (s : ConnectionState) (k : String) (h : BufMapInv s) :
    BufMapInv { s with buffers := objDel s.buffers k } := by
  constructor
  · intro p hp
    exact h.1 p (mem_objDel _ _ p hp)
  · exact objDel_keys_nodup _ _ h.2

/-- C7 counterexample: `renameBuffer(old, new)` with a buffer present at the
new name does NOT always return that existing buffer: when no buffer exists
at the old name the function returns early with `undefined`, even though
`#a` sits at the new name.  `renameBuffer("#b", "#a")` on a state holding
only `#a` returns nothing (it does change nothing). -/
theorem c7_rename_counterexample :
    st7W.getBuffer ("#a") = some bufAW ∧
    st7W.getBuffer ("#b") = none ∧
    (st7W.renameBuffer ("#b") ("#a")).2 ≠ some bufAW ∧
    st7W.renameBuffer ("#b") ("#a") = (st7W, none) :=
  ⟨by decide, by decide, by decide, by decide⟩

/-- C7 (amended): the buffer-map invariant — every stored buffer `B` sits
exactly at key `lowercase(B.name)` — is preserved by `addBuffer`,
`getOrAddBuffer`, `delBuffer` and `renameBuffer`; and `renameBuffer(old,
new)` behaves as follows: when no buffer exists at the old name it returns
`undefined` and changes nothing; otherwise, when a buffer already exists at
the new name it returns that existing buffer and changes nothing; otherwise
it removes the entry at `lowercase(old)`, sets the buffer's name to `new`,
and re-inserts it at `lowercase(new)`. -/
theorem c7_buffer_invariant_amended (s : ConnectionState) (h : BufMapInv s) :
    (∀ p ∈ s.buffers, objGet s.buffers (jsToLower p.2.name) = some p.2) ∧
    (∀ chan upCon, BufMapInv (s.addBuffer chan upCon).1) ∧
    (∀ name upCon, BufMapInv (s.getOrAddBuffer name upCon).1) ∧
    (∀ name, BufMapInv (s.delBuffer name)) ∧
    (∀ o n, BufMapInv (s.renameBuffer o n).1) ∧
    (∀ o n, s.getBuffer o = none → s.renameBuffer o n = (s, none)) ∧
    (∀ o n ob nb, s.getBuffer o = some ob → s.getBuffer n = some nb →
        s.renameBuffer o n = (s, some nb)) ∧
    (∀ o n ob, s.getBuffer o = some ob → s.getBuffer n = none →
        s.renameBuffer o n =
          ({ s with buffers := (objSet (objDel s.buffers (jsToLower o)) (jsToLower n)
              ({ ob with name := n })) }, some ({ ob with name := n }))) := by
  have haddInv : ∀ chan upCon, BufMapInv (s.addBuffer chan upCon).1 := by
    intro chan upCon
    cases chan with
    | name nm =>
      have := bufMapInv_objSet s (IrcBuffer.new nm upCon) h
      simpa [ConnectionState.addBuffer] using this
    | obj b =>
      have := bufMapInv_objSet s (IrcBuffer.fromObj b) h
      simpa [ConnectionState.addBuffer] using this
  refine ⟨?_, haddInv, ?_, ?_, ?_, ?_, ?_, ?_⟩
  · intro p hp
    rw [← h.1 p hp]
    exact objGet_mem_of_nodup s.buffers p.1 p.2 hp h.2
  · intro name upCon
    unfold ConnectionState.getOrAddBuffer
    cases hg : s.getBuffer name with
    | some buffer => exact h
    | none => exact haddInv (BufferArg.name name) upCon
  · intro name
    exact bufMapInv_objDel s (jsToLower name) h
  · intro o n
    unfold ConnectionState.renameBuffer
    cases ho : s.getBuffer o with
    | none => exact h
    | some ob =>
      cases hn : s.getBuffer n with
      | some nb => exact h
      | none =>
        have hdel := bufMapInv_objDel s (jsToLower o) h
        have := bufMapInv_objSet
          { s with buffers := objDel s.buffers (jsToLower o) }
          ({ ob with name := n }) hdel
        simpa using this
  · intro o n ho
    simp [ConnectionState.renameBuffer, ho]
  · intro o n ob nb ho hn
    simp [ConnectionState.renameBuffer, ho, hn]
  · intro o n ob ho hn
    simp [ConnectionState.renameBuffer, ho, hn]

/-- Witness for C7 (amended): renaming `#a` to `#b` on a concrete one-buffer
state moves the entry to key `#b` and mutates the name. -/
theorem c7_buffer_invariant_amended_witness :
    BufMapInv st7W ∧
    st7W.renameBuffer ("#a") ("#b") =
      ({ st7W with buffers := (objSet (objDel st7W.buffers (jsToLower ("#a")))
          (jsToLower ("#b")) ({ bufAW with name := ("#b") })) },
       some ({ bufAW with name := ("#b") })) :=
  ⟨by simp only [BufMapInv]; decide,
   (c7_buffer_invariant_amended st7W (by simp only [BufMapInv]; decide)).2.2.2.2.2.2.2
     ("#a") ("#b") bufAW (by decide) (by decide)⟩

/-! Toward C4: no verb handler other than the CAP gate ever writes
`tempData["reg.queue"]`, so the CAP END drain processes exactly the lines
that were queued when it started. -/
theorem foldl_state_eq {α : Type} :
    ∀ (l : List α) (f : Conn → α → Conn), (∀ c a, (f c a).state = c.state) →
      ∀ (c : Conn), (l.foldl f c).state = c.state
  | [], _, _, _ => rfl
  | a :: rest, f, hf, c => by
    rw [List.foldl_cons, foldl_state_eq rest f hf (f c a), hf]

theorem tempGet_congr_state (c1 c2 : Conn) (h : c1.state = c2.state) (k : String) :
    c1.tempGet k = c2.tempGet k := by
  simp [Conn.tempGet, h]

theorem queue_PASS (msg : Msg) (con con' : Conn) (b : Bool)
    (h : commands.PASS msg con = Except.ok (con', b)) :
    con'.tempGet ("reg.queue") = con.tempGet ("reg.queue") := by
  unfold commands.PASS at h
  split at h
  · simp only [Except.ok.injEq, Prod.mk.injEq] at h
    rw [← h.1]
  · split at h
    · simp at h
    · simp only [Except.ok.injEq, Prod.mk.injEq] at h
      rw [← h.1]
      exact tempGet_tempSet_ne con _ _ _ (by decide)

theorem queue_USER (msg : Msg) (con con' : Conn) (b : Bool)
    (h : commands.USER msg con = Except.ok (con', b)) :
    con'.tempGet ("reg.queue") = con.tempGet ("reg.queue") := by
  simp only [commands.USER] at h
  split at h
  · simp only [Except.ok.injEq, Prod.mk.injEq] at h
    rw [← h.1]
    exact tempGet_tempSet_ne con _ _ _ (by decide)
  · simp only [Except.ok.injEq, Prod.mk.injEq] at h
    rw [← h.1]

theorem queue_NICK (msg : Msg) (con con' : Conn) (b : Bool)
    (h : commands.NICK msg con = Except.ok (con', b)) :
    con'.tempGet ("reg.queue") = con.tempGet ("reg.queue") := by
  simp only [commands.NICK] at h
  split at h
  · simp only [Except.ok.injEq, Prod.mk.injEq] at h
    rw [← h.1]
  · split at h
    · split at h
      · simp only [Except.ok.injEq, Prod.mk.injEq] at h
        rw [← h.1]
        simp only [tempGet_writeFromBnc, tempGet_writeMsgFrom]
        rw [tempGet_tempSet_ne _ _ _ _ (by decide)]
        simp [Conn.tempGet]
      · simp only [Except.ok.injEq, Prod.mk.injEq] at h
        rw [← h.1]
        simp only [tempGet_writeFromBnc, tempGet_writeMsgFrom]
        simp [Conn.tempGet]
    · simp only [Except.ok.injEq, Prod.mk.injEq] at h
      rw [← h.1]

theorem queue_NOTICE (msg : Msg) (con con' : Conn) (b : Bool)
    (h : commands.NOTICE msg con = Except.ok (con', b)) :
    con'.tempGet ("reg.queue") = con.tempGet ("reg.queue") := by
  cases hu : con.upstream with
  | none =>
    simp only [commands.NOTICE, hu, Except.ok.injEq, Prod.mk.injEq] at h
    rw [← h.1]
  | some up =>
    simp only [commands.NOTICE, hu, Except.ok.injEq, Prod.mk.injEq] at h
    rw [← h.1]
    simp [Conn.tempGet, Conn.event]

theorem queue_PRIVMSG (msg : Msg) (con con' : Conn) (b : Bool)
    (h : commands.PRIVMSG msg con = Except.ok (con', b)) :
    con'.tempGet ("reg.queue") = con.tempGet ("reg.queue") := by
  cases hu : con.upstream with
  | none =>
    simp only [commands.PRIVMSG, hu] at h
    split at h <;>
      (simp only [Except.ok.injEq, Prod.mk.injEq] at h
       rw [← h.1]
       try simp [Conn.tempGet, Conn.event])
  | some up =>
    simp only [commands.PRIVMSG, hu] at h
    split at h <;>
      (simp only [Except.ok.injEq, Prod.mk.injEq] at h
       rw [← h.1]
       try simp [Conn.tempGet, Conn.event])

theorem queue_PING (msg : Msg) (con con' : Conn) (b : Bool)
    (h : commands.PING msg con = Except.ok (con', b)) :
    con'.tempGet ("reg.queue") = con.tempGet ("reg.queue") := by
  simp only [commands.PING, Except.ok.injEq, Prod.mk.injEq] at h
  rw [← h.1]
  simp

theorem queue_QUIT (msg : Msg) (con con' : Conn) (b : Bool)
    (h : commands.QUIT msg con = Except.ok (con', b)) :
    con'.tempGet ("reg.queue") = con.tempGet ("reg.queue") := by
  simp only [commands.QUIT, Except.ok.injEq, Prod.mk.injEq] at h
  rw [← h.1]
  simp

theorem queue_KILL (msg : Msg) (con con' : Conn) (b : Bool)
    (h : commands.KILL msg con = Except.ok (con', b)) :
    con'.tempGet ("reg.queue") = con.tempGet ("reg.queue") := by
  simp only [commands.KILL, Except.ok.injEq, Prod.mk.injEq] at h
  rw [← h.1]
  simp

theorem queue_RELOAD (msg : Msg) (con con' : Conn) (b : Bool)
    (h : commands.RELOAD msg con = Except.ok (con', b)) :
    con'.tempGet ("reg.queue") = con.tempGet ("reg.queue") := by
  simp only [commands.RELOAD, Except.ok.injEq, Prod.mk.injEq] at h
  rw [← h.1]
  simp

theorem queue_DEB (msg : Msg) (con con' : Conn) (b : Bool)
    (h : commands.DEB msg con = Except.ok (con', b)) :
    con'.tempGet ("reg.queue") = con.tempGet ("reg.queue") := by
  simp only [commands.DEB, Except.ok.injEq, Prod.mk.injEq] at h
  rw [← h.1]

theorem state_BOUNCER (env : Env) (msg : Msg) (con con' : Conn) (b : Bool)
    (h : commands.BOUNCER env msg con = Except.ok (con', b)) :
    con'.state = con.state := by
  simp only [commands.BOUNCER] at h
  repeat' split at h
  all_goals
    first
    | (simp at h
       done)
    | (simp only [Except.ok.injEq, Prod.mk.injEq] at h
       rw [← h.1]
       try simp only [state_writeMsg, state_event]
       try rfl
       try (apply foldl_state_eq
            intro c a
            rfl))

theorem queue_BOUNCER (env : Env) (msg : Msg) (con con' : Conn) (b : Bool)
    (h : commands.BOUNCER env msg con = Except.ok (con', b)) :
    con'.tempGet ("reg.queue") = con.tempGet ("reg.queue") :=
  tempGet_congr_state con' con (state_BOUNCER env msg con con' b h) _

theorem queue_maybeReg (env : Env) (con con' : Conn)
    (h : maybeProcessRegistration env con = Except.ok con') :
    con'.tempGet ("reg.queue") = con.tempGet ("reg.queue") := by
  simp only [maybeProcessRegistration] at h
  repeat' split at h
  all_goals
    first
    | (simp at h
       done)
    | (simp only [Except.ok.injEq] at h
       rw [← h]
       try rw [tempGet_tempSet_ne _ _ _ _ (by decide)]
       try rfl
       try simp [Conn.tempGet, Conn.event, Conn.writeStatus])

set_option maxHeartbeats 2000000 in
theorem execCommand_queue (env : Env) (fuel : Nat) (msg : Msg) (con con' : Conn) (b : Bool)
    (hcap : jsToUpper msg.command ≠ ("CAP"))
    (h : execCommand env fuel msg con = Except.ok (con', b)) :
    con'.tempGet ("reg.queue") = con.tempGet ("reg.queue") := by
  cases fuel with
  | zero => simp [execCommand] at h
  | succ fuel =>
    simp only [execCommand] at h
    rw [if_neg hcap] at h
    repeat' split at h
    · exact queue_PASS msg con con' b h
    · exact queue_USER msg con con' b h
    · exact queue_NOTICE msg con con' b h
    · exact queue_PRIVMSG msg con con' b h
    · exact queue_NICK msg con con' b h
    · exact queue_PING msg con con' b h
    · exact queue_QUIT msg con con' b h
    · exact queue_BOUNCER env msg con con' b h
    · exact queue_KILL msg con con' b h
    · exact queue_RELOAD msg con con' b h
    · exact queue_DEB msg con con' b h
    · simp at h

/-- A dispatched message tagged `source=queue` whose verb is not CAP never
touches `reg.queue`: the CAP gate is the only writer of that key. -/
theorem run_queue (env : Env) (fuel : Nat) (msg : Msg) (con con' : Conn) (b : Bool)
    (hsrc : msg.source = some ("queue"))
    (hcap : jsToUpper msg.command ≠ ("CAP"))
    (h : run env fuel msg con = Except.ok (con', b)) :
    con'.tempGet ("reg.queue") = con.tempGet ("reg.queue") := by
  cases fuel with
  | zero => simp [run] at h
  | succ fuel =>
    simp only [run] at h
    split at h
    · exact execCommand_queue env fuel msg con con' b hcap h
    · split at h
      · rename_i hgate
        exact absurd hsrc hgate.2.2
      · split at h
        · split at h
          · simp only [Except.ok.injEq, Prod.mk.injEq] at h
            rw [← h.1]
          · set conInit := (if (con.tempGet ("reg.state")).isNone = true
              then con.tempSet ("reg.state") (some (TempVal.reg ("") ("") ("")))
              else con) with hconInit
            have hinit : conInit.tempGet ("reg.queue") = con.tempGet ("reg.queue") := by
              rw [hconInit]
              split
              · exact tempGet_tempSet_ne con _ _ _ (by decide)
              · rfl
            split at h
            · simp at h
            · rename_i con2 b2 heq
              split at h
              · simp at h
              · rename_i con3 heq2
                simp only [Except.ok.injEq, Prod.mk.injEq] at h
                rw [← h.1]
                rw [queue_maybeReg env con2 con3 heq2,
                  execCommand_queue env fuel msg conInit con2 b2 hcap heq, hinit]
        · split at h
          · exact execCommand_queue env fuel msg con con' b hcap h
          · simp only [Except.ok.injEq, Prod.mk.injEq] at h
            rw [← h.1]

/-- For a non-CAP verb the dispatch consumes no fuel: only the
`CAP END` → `processConQueue` → `run` cycle does. -/
theorem execCommand_fuel_inv (env : Env) (f g : Nat) (msg : Msg) (con : Conn)
    (hcap : jsToUpper msg.command ≠ ("CAP")) :
    execCommand env (f + 1) msg con = execCommand env (g + 1) msg con := by
  simp only [execCommand]
  rw [if_neg hcap, if_neg hcap]

theorem run_fuel_inv (env : Env) (f g : Nat) (msg : Msg) (con : Conn)
    (hcap : jsToUpper msg.command ≠ ("CAP")) :
    run env (f + 2) msg con = run env (g + 2) msg con := by
  have hexec : ∀ c : Conn, execCommand env (f + 1) msg c = execCommand env (g + 1) msg c :=
    fun c => execCommand_fuel_inv env f g msg c hcap
  show run env ((f + 1) + 1) msg con = run env ((g + 1) + 1) msg con
  simp only [run]
  simp only [hexec]

theorem regQueueOf_eq_of_tempGet (c : Conn) (q : List String)
    (h : c.tempGet ("reg.queue") = some (TempVal.queue q)) : regQueueOf c = q := by
  simp [regQueueOf, h]

theorem regQueueOf_tempSet_queue (c : Conn) (q : List String) :
    regQueueOf (c.tempSet ("reg.queue") (some (TempVal.queue q))) = q := by
  simp [regQueueOf, tempGet_tempSet_self]

/-- The dynamic drain loop of `processConQueue` — which re-reads
`reg.queue` after every dispatch — processes exactly the lines present when
it started, in arrival order: dispatched queue-tagged messages never
re-enqueue, so the loop equals the static fold `drainSpec`. -/
theorem drain_eq (env : Env) :
    ∀ (q : List String) (fuel : Nat) (con : Conn),
      q.length + 2 ≤ fuel →
      regQueueOf con = q →
      (∀ line ∈ q, ∀ m, ircLineParser line = some m → jsToUpper m.command ≠ ("CAP")) →
      processConQueue env fuel con = drainSpec env q con
  | [], fuel, con, hfuel, hq, _ => by
    obtain ⟨f, rfl⟩ : ∃ f, fuel = f + 1 := ⟨fuel - 1, by omega⟩
    simp only [processConQueue, drainSpec, hq]
  | line :: rest, fuel, con, hfuel, hq, hnoCap => by
    obtain ⟨f, rfl⟩ : ∃ f, fuel = f + 1 := ⟨fuel - 1, by omega⟩
    have hfuel2 : rest.length + 2 ≤ f := by
      simp only [List.length_cons] at hfuel
      omega
    have hq1 : regQueueOf (con.tempSet ("reg.queue") (some (TempVal.queue rest))) = rest :=
      regQueueOf_tempSet_queue con rest
    have hrest : ∀ l ∈ rest, ∀ m, ircLineParser l = some m →
        jsToUpper m.command ≠ ("CAP") :=
      fun l hl => hnoCap l (List.mem_cons_of_mem _ hl)
    simp only [processConQueue, drainSpec, hq]
    by_cases hline : line = ("")
    · rw [if_pos hline, if_pos hline]
      exact drain_eq env rest f _ hfuel2 hq1 hrest
    · rw [if_neg hline, if_neg hline]
      cases hparse : ircLineParser line with
      | none =>
        dsimp only
        exact drain_eq env rest f _ hfuel2 hq1 hrest
      | some m =>
        dsimp only
        have hcap' : jsToUpper ({ m with source := some ("queue") } : Msg).command
            ≠ ("CAP") :=
          hnoCap line (List.mem_cons_self _ _) m hparse
        obtain ⟨f2, rfl⟩ : ∃ f2, f = f2 + 2 := ⟨f - 2, by omega⟩
        have hrun : run env (f2 + 2) { m with source := some ("queue") }
            (con.tempSet ("reg.queue") (some (TempVal.queue rest))) =
            run env 2 { m with source := some ("queue") }
            (con.tempSet ("reg.queue") (some (TempVal.queue rest))) := by
          have h0 := run_fuel_inv env f2 0 { m with source := some ("queue") }
            (con.tempSet ("reg.queue") (some (TempVal.queue rest))) hcap'
          simpa using h0
        rw [hrun]
        cases hres : run env 2 { m with source := some ("queue") }
            (con.tempSet ("reg.queue") (some (TempVal.queue rest))) with
        | error e => rfl
        | ok p =>
          obtain ⟨con2, b2⟩ := p
          have hq2 : regQueueOf con2 = rest := by
            have hpres := run_queue env 2 { m with source := some ("queue") }
              (con.tempSet ("reg.queue") (some (TempVal.queue rest))) con2 b2 rfl hcap' hres
            exact regQueueOf_eq_of_tempGet con2 rest
              (by rw [hpres, tempGet_tempSet_self])
          exact drain_eq env rest (f2 + 2) con2 (by omega) hq2 hrest

/-- A successful drain always ends with `reg.queue` deleted. -/
theorem drainSpec_queue_none (env : Env) :
    ∀ (q : List String) (con con' : Conn),
      drainSpec env q con = Except.ok con' → con'.tempGet ("reg.queue") = none
  | [], con, con', h => by
    simp only [drainSpec, Except.ok.injEq] at h
    rw [← h]
    exact tempGet_tempSet_none con _
  | line :: rest, con, con', h => by
    simp only [drainSpec] at h
    split at h
    · exact drainSpec_queue_none env rest _ con' h
    · split at h
      · exact drainSpec_queue_none env rest _ con' h
      · split at h
        · simp at h
        · exact drainSpec_queue_none env rest _ con' h

/-- C4: on `CAP END`, for every finite contents `q` of
`tempData["reg.queue"]` (whose lines do not parse to CAP — the enqueuing
gate never queues CAP lines), the handler equals the sequential drain of
exactly `q` in arrival order — each line re-parsed and re-dispatched
through `run` tagged `source=queue`, continuing until the queue is empty
even though the loop re-reads the queue after every dispatch — followed by
the clearing of `tempData["capping"]` only after the drain completes; and
when the handler returns normally, `reg.queue` is removed and `capping` is
cleared. -/
theorem c4_cap_end_drain (env : Env) (fuel : Nat) (msg : Msg) (con : Conn)
    (q : List String)
    (hend : mParamU msg 0 ("") = ("END"))
    (hq : regQueueOf con = q)
    (hnoCap : ∀ line ∈ q, ∀ m, ircLineParser line = some m →
        jsToUpper m.command ≠ ("CAP"))
    (hfuel : q.length + 2 ≤ fuel) :
    commands.CAP env (fuel + 1) msg con =
      (match drainSpec env q con with
       | Except.error e => Except.error e
       | Except.ok con2 => Except.ok (con2.tempSet ("capping") none, false)) ∧
    (∀ con' b, commands.CAP env (fuel + 1) msg con = Except.ok (con', b) →
        con'.tempGet ("reg.queue") = none ∧ con'.tempGet ("capping") = none) := by
  have hlist : mParamU msg 0 ("") ≠ ("LIST") := by rw [hend]; decide
  have hls : mParamU msg 0 ("") ≠ ("LS") := by rw [hend]; decide
  have hreq : mParamU msg 0 ("") ≠ ("REQ") := by rw [hend]; decide
  have hmain : commands.CAP env (fuel + 1) msg con =
      (match drainSpec env q con with
       | Except.error e => Except.error e
       | Except.ok con2 => Except.ok (con2.tempSet ("capping") none, false)) := by
    simp only [commands.CAP]
    rw [if_neg hlist, if_neg hls, if_neg hreq, if_pos hend,
      drain_eq env q fuel con hfuel hq hnoCap]
  refine ⟨hmain, ?_⟩
  intro con' b h
  rw [hmain] at h
  cases hdrain : drainSpec env q con with
  | error e => rw [hdrain] at h; simp at h
  | ok con2 =>
    rw [hdrain] at h
    simp only [Except.ok.injEq, Prod.mk.injEq] at h
    rw [← h.1]
    constructor
    · rw [tempGet_tempSet_ne _ _ _ _ (by decide)]
      exact drainSpec_queue_none env q con con2 hdrain
    · exact tempGet_tempSet_none con2 _

/-- Witness for C4: a `CAP END` with one queued line `JOIN #foo` equals the
drain of exactly that line followed by the clearing of `capping`. -/
theorem c4_cap_end_drain_witness :
    commands.CAP envW 4 msgCapEndW conQW =
      (match drainSpec envW [("JOIN #foo")] conQW with
       | Except.error e => Except.error e
       | Except.ok con2 => Except.ok (con2.tempSet ("capping") none, false)) :=
  (c4_cap_end_drain envW 3 msgCapEndW conQW [("JOIN #foo")] (by decide) (by decide)
    (by
      intro line hline m hm
      simp only [List.mem_singleton] at hline
      subst hline
      have h2 : ircLineParser ("JOIN #foo") =
          some { command := ("JOIN"), params := [("#foo")], source := none } := by decide
      rw [h2] at hm
      injection hm with hm2
      subst hm2
      decide)
    (by decide)).1

end KiwiBnc

